import Mathlib

/-
Verification of the willwimusic real-time lyric visualizer core.

The definitions below are a shallow embedding of the render-loop source
(the Visualizer component: the easing functions, the Particle class, the
per-frame `animate` pass, the background selection, the beat-factor
derivation, and codec negotiation for recording).  JavaScript numbers are
modelled as rationals; `Math.sin` and `Math.random` are modelled as
caller-supplied parameters (`msin`, `rnd`) wherever the loop consumes
them, so every theorem quantifies over their possible values.
-/

namespace WillwiMusic

/-- Source: `const easeOutCubic = (x) => 1 - Math.pow(1 - x, 3)`. -/
def easeOutCubic (x : ℚ) : ℚ := 1 - (1 - x) ^ 3

/-- Source: `const easeInOutSine = (x) => -(Math.cos(Math.PI * x) - 1) / 2`. -/
noncomputable def easeInOutSine (x : ℝ) : ℝ := -(Real.cos (Real.pi * x) - 1) / 2

/-- Source: `easeOutBack` with `c1 = 1.70158`, `c3 = c1 + 1`,
returning `1 + c3 * Math.pow(x - 1, 3) + c1 * Math.pow(x - 1, 2)`. -/
def easeOutBack (x : ℚ) : ℚ :=
  let c1 : ℚ := 1.70158
  let c3 : ℚ := c1 + 1
  1 + c3 * (x - 1) ^ 3 + c1 * (x - 1) ^ 2

/-- The engine's lyric-line record (types.ts `LyricLine`). -/
structure LyricLine where
  id : String
  startTime : ℚ
  endTime : ℚ
  text : String
  translation : Option String
  deriving Repr, DecidableEq

/-- The three drawing phases passed to `drawLine`. -/
inductive LyricPhase
  | enter
  | active
  | exit
  deriving Repr, DecidableEq

/-- Phase selection from the tail of `animate`:
```
const timeSinceStart = currentTime - line.startTime;
if (currentTime >= line.startTime && currentTime < line.endTime) {
    if (timeSinceStart < transitionDuration) drawLine(line, 'enter', timeSinceStart / transitionDuration);
    else drawLine(line, 'active', 1);
} else if (currentTime >= line.endTime && currentTime < line.endTime + transitionDuration) {
     const exitProgress = (currentTime - line.endTime) / transitionDuration;
     drawLine(line, 'exit', exitProgress);
}
```
`none` means the line is not drawn this frame. -/
def animateLinePhase (line : LyricLine) (transitionDuration currentTime : ℚ) :
    Option (LyricPhase × ℚ) :=
  let timeSinceStart := currentTime - line.startTime
  if line.startTime ≤ currentTime ∧ currentTime < line.endTime then
    if timeSinceStart < transitionDuration then
      some (LyricPhase.enter, timeSinceStart / transitionDuration)
    else
      some (LyricPhase.active, 1)
  else if line.endTime ≤ currentTime ∧ currentTime < line.endTime + transitionDuration then
    some (LyricPhase.exit, (currentTime - line.endTime) / transitionDuration)
  else
    none

/-- types.ts `ParticleStyle`. -/
inductive ParticleStyle
  | STANDARD
  | COSMOS
  | OCEAN
  | GEOMETRIC
  | MUSICAL
  | SNOW
  deriving Repr, DecidableEq

/-- The mutable fields of the `Particle` class (`life` is the age counter,
`maxLife` the maximum age, both named as in the source). -/
structure Particle where
  x : ℚ
  y : ℚ
  vx : ℚ
  vy : ℚ
  size : ℚ
  color : String
  life : ℕ
  maxLife : ℚ
  style : ParticleStyle
  angle : ℚ
  rotationSpeed : ℚ
  type : ℕ
  deriving Repr, DecidableEq

/-- `Particle.update(width, height, beatFactor, speedFactor)`.
`msin` stands for `Math.sin`; `rnd` stands for the `Math.random()` value
drawn inside a wrap-around reset (`this.x = Math.random() * width`). -/
def Particle.update (msin : ℚ → ℚ) (rnd width height beatFactor speedFactor : ℚ)
    (p : Particle) : Particle :=
  let moveX := p.vx * speedFactor * beatFactor
  let moveY := p.vy * speedFactor * beatFactor
  let x1 :=
    if p.style = ParticleStyle.OCEAN ∨ p.style = ParticleStyle.SNOW then
      p.x + moveX + msin ((p.life : ℚ) * 0.05) * 0.5
    else
      p.x + moveX
  let y1 := p.y + moveY
  let angle1 := p.angle + p.rotationSpeed * beatFactor * speedFactor
  if p.style = ParticleStyle.OCEAN ∨ p.style = ParticleStyle.MUSICAL then
    if y1 < -50 then
      { p with x := rnd * width, y := height + 50, angle := angle1, life := 0 }
    else
      { p with x := x1, y := y1, angle := angle1, life := p.life + 1 }
  else if p.style = ParticleStyle.SNOW then
    if y1 > height + 50 then
      { p with x := rnd * width, y := -50, angle := angle1, life := 0 }
    else
      { p with x := x1, y := y1, angle := angle1, life := p.life + 1 }
  else
    let vx1 := if x1 < 0 ∨ x1 > width then -p.vx else p.vx
    let vy1 := if y1 < 0 ∨ y1 > height then -p.vy else p.vy
    { p with x := x1, y := y1, vx := vx1, vy := vy1, angle := angle1, life := p.life + 1 }

/-- The removal decision applied inside the `animate` particle loop, to the
particle state after `update`:
```
if (p.life >= p.maxLife || p.y < -100 || p.y > height + 100 || p.x < -100 || p.x > width + 100) {
    if (settings.particleStyle !== OCEAN && settings.particleStyle !== MUSICAL && settings.particleStyle !== SNOW) {
        splice(index, 1);
    } else if (p.life >= p.maxLife) {
        splice(index, 1);
    }
}
```
Note the branch reads `settings.particleStyle`, not `p.style`. -/
def animateShouldRemove (settingsParticleStyle : ParticleStyle) (width height : ℚ)
    (p : Particle) : Bool :=
  if p.maxLife ≤ (p.life : ℚ) ∨ p.y < -100 ∨ p.y > height + 100
      ∨ p.x < -100 ∨ p.x > width + 100 then
    if settingsParticleStyle ≠ ParticleStyle.OCEAN
        ∧ settingsParticleStyle ≠ ParticleStyle.MUSICAL
        ∧ settingsParticleStyle ≠ ParticleStyle.SNOW then
      true
    else if p.maxLife ≤ (p.life : ℚ) then
      true
    else
      false
  else
    false

/-- The `particlesRef.current.forEach((p, index) => { p.update(...); p.draw(ctx); if (...) splice(index, 1); })`
pass.  `forEach` captures the length up front and `splice(index, 1)` shifts
the array left, so removing the visited particle makes the following
particle skip its visit for this frame (it is neither updated, drawn, nor
checked).  The result is `(final pool, states passed to draw, in order)`. -/
def animateParticlePass (msin : ℚ → ℚ) (rnd : ℚ) (settingsParticleStyle : ParticleStyle)
    (width height beatFactor speedFactor : ℚ) :
    List Particle → List Particle × List Particle
  | [] => ([], [])
  | p :: rest =>
    let p1 := p.update msin rnd width height beatFactor speedFactor
    if animateShouldRemove settingsParticleStyle width height p1 then
      match rest with
      | [] => ([], [p1])
      | q :: rest2 =>
        let r := animateParticlePass msin rnd settingsParticleStyle
          width height beatFactor speedFactor rest2
        (q :: r.1, p1 :: r.2)
    else
      let r := animateParticlePass msin rnd settingsParticleStyle
        width height beatFactor speedFactor rest
      (p1 :: r.1, p1 :: r.2)

/-- Beat-factor derivation at the top of `animate`:
```
let beatFactor = 1.0;
if (analyserRef.current) {
  ... getByteFrequencyData(dataArray);
  let sum = 0;
  for (let i = 0; i < 20; i++) sum += dataArray[i];
  const average = sum / 20;
  beatFactor = 1 + (average / 255) * settings.beatSensitivity;
}
```
`none` models the absent analyser. -/
def animateBeatFactor (sample : Option (ℕ → ℚ)) (beatSensitivity : ℚ) : ℚ :=
  match sample with
  | none => 1
  | some dataArray =>
    let sum := Finset.sum (Finset.range 20) fun i => dataArray i
    let average := sum / 20
    1 + (average / 255) * beatSensitivity

/-- One entry of the `types` preference list in `startRecording`. -/
structure RecordingType where
  mime : String
  ext : String
  deriving Repr, DecidableEq

/-- The ordered codec preference list probed by `startRecording`. -/
def recordingTypes : List RecordingType :=
  [⟨"video/mp4", "mp4"⟩,
   ⟨"video/webm;codecs=h264", "webm"⟩,
   ⟨"video/webm;codecs=vp9", "webm"⟩,
   ⟨"video/webm", "webm"⟩]

/-- Codec negotiation:
```
const supported = types.find(t => MediaRecorder.isTypeSupported(t.mime));
const mimeType = supported ? supported.mime : 'video/webm';
recordingExtRef.current = supported ? supported.ext : 'webm';
```
Returns `(mimeType, extension)`. -/
def negotiateRecording (isTypeSupported : String → Bool) : String × String :=
  match recordingTypes.find? (fun t => isTypeSupported t.mime) with
  | some t => (t.mime, t.ext)
  | none => ("video/webm", "webm")

/-- types.ts `BackgroundMode`. -/
inductive BackgroundMode
  | COLOR
  | IMAGE
  | VIDEO
  deriving Repr, DecidableEq

/-- What the background branch of `animate` draws this frame. -/
inductive BackgroundDraw
  | coverVideo
  | coverImage
  | colorFill (c : String)
  deriving Repr, DecidableEq

/-- JavaScript truthiness of the optional `settings.backgroundVideo` string. -/
def jsTruthyStr : Option String → Bool
  | none => false
  | some s => !(s == "")

/-- Background selection in `animate`:
```
if (settings.backgroundMode === 'VIDEO' && settings.backgroundVideo && bgVideoRef.current.readyState >= 2) {
     drawCover(bgVideoRef.current, ...);
} else if (settings.backgroundMode === 'IMAGE' && bgImageRef.current) {
     drawCover(bgImageRef.current, ...);
} else {
  ctx.fillStyle = settings.backgroundColor;
  ctx.fillRect(0, 0, width, height);
}
```
`imageLoaded` models `bgImageRef.current` being non-null (the image
finished loading); `videoReadyState` models `readyState`. -/
def animateBackground (mode : BackgroundMode) (backgroundVideo : Option String)
    (videoReadyState : ℕ) (imageLoaded : Bool) (backgroundColor : String) : BackgroundDraw :=
  if mode = BackgroundMode.VIDEO ∧ jsTruthyStr backgroundVideo = true ∧ 2 ≤ videoReadyState then
    BackgroundDraw.coverVideo
  else if mode = BackgroundMode.IMAGE ∧ imageLoaded = true then
    BackgroundDraw.coverImage
  else
    BackgroundDraw.colorFill backgroundColor

/-- The per-character sub-window of the KINETIC enter animation:
`const startP = (idx / chars.length) * 0.8; const endP = startP + 0.3;`. -/
def kineticCharWindow (idx count : ℕ) : ℚ × ℚ :=
  let startP := ((idx : ℚ) / (count : ℚ)) * 0.8
  (startP, startP + 0.3)

/-- `const p = (progress - startP) / (endP - startP); const clampedP = Math.max(0, Math.min(1, p));`. -/
def kineticClampedProgress (idx count : ℕ) (progress : ℚ) : ℚ :=
  let startP := ((idx : ℚ) / (count : ℚ)) * 0.8
  let endP := startP + 0.3
  let p := (progress - startP) / (endP - startP)
  max 0 (min 1 p)

/-- The character is drawn only under `if (clampedP > 0)`. -/
def kineticCharDrawn (idx count : ℕ) (progress : ℚ) : Bool :=
  0 < kineticClampedProgress idx count progress

/-- `const charScale = easeOutBack(clampedP)`. -/
def kineticCharScale (idx count : ℕ) (progress : ℚ) : ℚ :=
  easeOutBack (kineticClampedProgress idx count progress)

/-- The lyric line of the spec's worked example: start 10, end 14. -/
def exLine : LyricLine :=
  { id := "l1", startTime := 10, endTime := 14, text := "hello", translation := none }

/-- A stand-in for `Math.sin` used by concrete evaluations; every theorem
about the pass quantifies over the sine function, so the choice is free. -/
def msin0 : ℚ → ℚ := fun _ => 0

/-- An OCEAN-style particle that has drifted past the right canvas margin
(x = 2070 on a 1920-wide canvas) while far from its age limit. -/
def cexOceanParticle : Particle :=
  { x := 2070, y := 500, vx := 0.24, vy := -1, size := 3, color := "#ffffff",
    life := 5, maxLife := 150, style := ParticleStyle.OCEAN, angle := 0,
    rotationSpeed := 0.01, type := 0 }

/-- An OCEAN-style particle one step away from crossing `y < -50`, which
triggers the wrap-around reset inside `update`. -/
def cexResetParticle : Particle :=
  { x := 500, y := -49.5, vx := 0, vy := -1.5, size := 3, color := "#ffffff",
    life := 5, maxLife := 150, style := ParticleStyle.OCEAN, angle := 0,
    rotationSpeed := 0, type := 0 }

/-- A STANDARD particle whose next update reaches its maximum age, so the
pass removes it. -/
def cexAgedParticle : Particle :=
  { x := 500, y := 500, vx := 0.3, vy := 0.2, size := 2, color := "#ffffff",
    life := 149, maxLife := 150, style := ParticleStyle.STANDARD, angle := 0,
    rotationSpeed := 0, type := 1 }

/-- A young in-bounds STANDARD particle; placed right after a removed
particle it gets skipped by the pass. -/
def cexSkippedParticle : Particle :=
  { x := 600, y := 400, vx := -0.4, vy := 0.1, size := 2, color := "#000000",
    life := 7, maxLife := 180, style := ParticleStyle.STANDARD, angle := 0,
    rotationSpeed := 0.01, type := 2 }

/-- A support predicate under which only the WebM/VP9 entry is supported. -/
def suppVp9 : String → Bool := fun s => s == "video/webm;codecs=vp9"

/-- Claim C9: the three easing functions are pure and equal their reference
definitions — `easeOutCubic x = 1 - (1-x)^3`, `easeInOutSine x = -(cos(πx)-1)/2`,
`easeOutBack x = 1 + c3·(x-1)^3 + c1·(x-1)^2` with `c1 = 1.70158`,
`c3 = c1 + 1` — and `easeOutBack` exceeds 1 somewhere in (0,1). -/
theorem c9_easing_reference :
    (∀ x : ℚ, easeOutCubic x = 1 - (1 - x) ^ 3) ∧
    (∀ x : ℝ, easeInOutSine x = -(Real.cos (Real.pi * x) - 1) / 2) ∧
    (∀ x : ℚ, easeOutBack x = 1 + (1.70158 + 1) * (x - 1) ^ 3 + 1.70158 * (x - 1) ^ 2) ∧
    ((0 : ℚ) < 1 / 2 ∧ (1 / 2 : ℚ) < 1 ∧ 1 < easeOutBack (1 / 2)) := by
  refine ⟨fun x => rfl, fun x => rfl, fun x => rfl, by norm_num, by norm_num, ?_⟩
  norm_num [easeOutBack]

/-- Claim C5: the beat factor is `1 + (average of the first 20 bins / 255) ×
beatSensitivity` when a frequency sampler is attached and exactly 1 when it
is not; with bin magnitudes in [0,255] and nonnegative sensitivity it is
always at least 1. -/
theorem c5_beat_factor :
    (∀ s : ℚ, animateBeatFactor none s = 1) ∧
    (∀ (d : ℕ → ℚ) (s : ℚ),
      animateBeatFactor (some d) s
        = 1 + (Finset.sum (Finset.range 20) (fun i => d i) / 20 / 255) * s) ∧
    (∀ (d : ℕ → ℚ) (s : ℚ), (∀ i, i < 20 → 0 ≤ d i ∧ d i ≤ 255) → 0 ≤ s →
      1 ≤ animateBeatFactor (some d) s) := by
  refine ⟨fun _ => rfl, fun _ _ => rfl, fun d s hd hs => ?_⟩
  have hsum : 0 ≤ Finset.sum (Finset.range 20) fun i => d i :=
    Finset.sum_nonneg fun i hi => (hd i (Finset.mem_range.mp hi)).1
  have h2 : 0 ≤ (Finset.sum (Finset.range 20) (fun i => d i) / 20 / 255) * s := by
    apply mul_nonneg _ hs
    apply div_nonneg _ (by norm_num)
    exact div_nonneg hsum (by norm_num)
  show 1 ≤ 1 + (Finset.sum (Finset.range 20) (fun i => d i) / 20 / 255) * s
  linarith

/-- Witness for C5 at a concrete sampler (all bins at 100) and sensitivity 1. -/
theorem c5_beat_factor_witness :
    (0 : ℚ) ≤ 1 ∧ 1 ≤ animateBeatFactor (some fun _ => (100 : ℚ)) 1 :=
  ⟨by norm_num, c5_beat_factor.2.2 (fun _ => 100) 1 (fun i _ => by norm_num) (by norm_num)⟩

/-- Claim C6: codec negotiation probes the ordered list
mp4, webm-h264, webm-vp9, webm and picks the first supported entry, with the
webm/webm default when none is supported; when only the vp9 entry is
supported the negotiated pair is (webm-vp9 mime, webm extension). -/
theorem c6_codec_negotiation (supp : String → Bool) :
    (negotiateRecording supp =
      if supp "video/mp4" then ("video/mp4", "mp4")
      else if supp "video/webm;codecs=h264" then ("video/webm;codecs=h264", "webm")
      else if supp "video/webm;codecs=vp9" then ("video/webm;codecs=vp9", "webm")
      else if supp "video/webm" then ("video/webm", "webm")
      else ("video/webm", "webm")) ∧
    (supp "video/mp4" = false → supp "video/webm;codecs=h264" = false →
      supp "video/webm;codecs=vp9" = true →
      negotiateRecording supp = ("video/webm;codecs=vp9", "webm")) := by
  constructor
  · cases h1 : supp "video/mp4" <;> cases h2 : supp "video/webm;codecs=h264" <;>
      cases h3 : supp "video/webm;codecs=vp9" <;> cases h4 : supp "video/webm" <;>
      simp [negotiateRecording, recordingTypes, List.find?, h1, h2, h3, h4]
  · intro h1 h2 h3
    simp [negotiateRecording, recordingTypes, List.find?, h1, h2, h3]

/-- Witness for C6 at the support predicate that accepts only webm-vp9. -/
theorem c6_codec_negotiation_witness :
    suppVp9 "video/mp4" = false ∧ suppVp9 "video/webm;codecs=h264" = false ∧
    suppVp9 "video/webm;codecs=vp9" = true ∧
    negotiateRecording suppVp9 = ("video/webm;codecs=vp9", "webm") :=
  ⟨rfl, rfl, rfl, (c6_codec_negotiation suppVp9).2 rfl rfl rfl⟩

/-- Claim C7: when the background mode is VIDEO with an absent or not yet
decodable source, or IMAGE with an image that has not loaded, the frame's
background falls back to the flat color fill; the selection is total, so
some background is always drawn. -/
theorem c7_background_fallback (mode : BackgroundMode) (bv : Option String)
    (rs : ℕ) (img : Bool) (c : String) :
    (mode = BackgroundMode.VIDEO → (bv = none ∨ rs < 2) →
      animateBackground mode bv rs img c = BackgroundDraw.colorFill c) ∧
    (mode = BackgroundMode.IMAGE → img = false →
      animateBackground mode bv rs img c = BackgroundDraw.colorFill c) ∧
    (animateBackground mode bv rs img c = BackgroundDraw.coverVideo ∨
     animateBackground mode bv rs img c = BackgroundDraw.coverImage ∨
     animateBackground mode bv rs img c = BackgroundDraw.colorFill c) := by
  refine ⟨?_, ?_, ?_⟩
  · rintro rfl hv
    have hfail : ¬(BackgroundMode.VIDEO = BackgroundMode.VIDEO
        ∧ jsTruthyStr bv = true ∧ 2 ≤ rs) := by
      rcases hv with rfl | hlt
      · rintro ⟨-, htr, -⟩; simp [jsTruthyStr] at htr
      · rintro ⟨-, -, hge⟩; omega
    have h2 : ¬(BackgroundMode.VIDEO = BackgroundMode.IMAGE ∧ img = true) := by
      rintro ⟨heq, -⟩; exact absurd heq (by simp)
    simp [animateBackground, hfail, h2]
    intro htr
    rcases hv with rfl | hlt
    · simp [jsTruthyStr] at htr
    · exact hlt
  · rintro rfl himg
    have h1 : ¬(BackgroundMode.IMAGE = BackgroundMode.VIDEO
        ∧ jsTruthyStr bv = true ∧ 2 ≤ rs) := by
      rintro ⟨heq, -, -⟩; exact absurd heq (by simp)
    have h2 : ¬(BackgroundMode.IMAGE = BackgroundMode.IMAGE ∧ img = true) := by
      rintro ⟨-, h⟩; rw [himg] at h; exact Bool.false_ne_true h
    simp [animateBackground, h1, h2]
    exact himg
  · unfold animateBackground
    split_ifs <;> simp

/-- Witness for C7: VIDEO mode with no video source falls back to the color fill. -/
theorem c7_background_fallback_witness :
    BackgroundMode.VIDEO = BackgroundMode.VIDEO ∧
    ((none : Option String) = none ∨ (0 : ℕ) < 2) ∧
    animateBackground BackgroundMode.VIDEO none 0 false "#112233"
      = BackgroundDraw.colorFill "#112233" :=
  ⟨rfl, Or.inl rfl, (c7_background_fallback BackgroundMode.VIDEO none 0 false "#112233").1
    rfl (Or.inl rfl)⟩

/-- Claim C8 counterexample: with 5 characters and enter progress 0.5,
character index 4 (window starting at 0.64) has clamped window-progress 0 —
not strictly between 0 and 1 — and is not drawn at all. -/
theorem c8_counterexample :
    kineticClampedProgress 4 5 (1 / 2) = 0 ∧
    ¬(0 < kineticClampedProgress 4 5 (1 / 2) ∧ kineticClampedProgress 4 5 (1 / 2) < 1) ∧
    kineticCharDrawn 4 5 (1 / 2) = false := by
  refine ⟨by norm_num [kineticClampedProgress], ?_, by norm_num [kineticCharDrawn, kineticClampedProgress]⟩
  norm_num [kineticClampedProgress]

/-- Claim C8 (amended): during the KINETIC enter phase, the character at
index idx of an n-character line has sub-window
[idx/n × 0.8, idx/n × 0.8 + 0.3) of the enter progress, its drawn scale is
easeOutBack of the progress clamped into that window (clamped value 0 at or
before the window, 1 at or past it, strictly between 0 and 1 inside); with
n = 5 and progress = 0.5 character 0 is fully scaled in while character 4
has clamped window-progress 0 and is not drawn. -/
theorem c8_kinetic_windows (idx count : ℕ) (progress : ℚ) :
    kineticCharWindow idx count
      = (((idx : ℚ) / (count : ℚ)) * 0.8, ((idx : ℚ) / (count : ℚ)) * 0.8 + 0.3) ∧
    kineticCharScale idx count progress
      = easeOutBack (kineticClampedProgress idx count progress) ∧
    (progress ≤ ((idx : ℚ) / (count : ℚ)) * 0.8 →
      kineticClampedProgress idx count progress = 0) ∧
    (((idx : ℚ) / (count : ℚ)) * 0.8 + 0.3 ≤ progress →
      kineticClampedProgress idx count progress = 1) ∧
    (((idx : ℚ) / (count : ℚ)) * 0.8 < progress →
      progress < ((idx : ℚ) / (count : ℚ)) * 0.8 + 0.3 →
      kineticClampedProgress idx count progress
          = (progress - ((idx : ℚ) / (count : ℚ)) * 0.8) / 0.3 ∧
      0 < kineticClampedProgress idx count progress ∧
      kineticClampedProgress idx count progress < 1) ∧
    kineticClampedProgress 0 5 (1 / 2) = 1 ∧
    kineticCharScale 0 5 (1 / 2) = 1 ∧
    kineticClampedProgress 4 5 (1 / 2) = 0 := by
  have hq : ∀ a : ℚ, a / (0.3 : ℚ) = a * (10 / 3) := by
    intro a; rw [div_eq_mul_inv]; norm_num
  have hred : kineticClampedProgress idx count progress
      = max 0 (min 1 ((progress - ((idx : ℚ) / (count : ℚ)) * 0.8) * (10 / 3))) := by
    show max 0 (min 1 ((progress - ((idx : ℚ) / (count : ℚ)) * 0.8)
        / (((idx : ℚ) / (count : ℚ)) * 0.8 + 0.3 - ((idx : ℚ) / (count : ℚ)) * 0.8))) = _
    rw [show ((idx : ℚ) / (count : ℚ)) * 0.8 + 0.3 - ((idx : ℚ) / (count : ℚ)) * 0.8
        = (0.3 : ℚ) by ring, hq]
  refine ⟨rfl, rfl, ?_, ?_, ?_, by norm_num [kineticClampedProgress],
    by norm_num [kineticCharScale, kineticClampedProgress, easeOutBack],
    by norm_num [kineticClampedProgress]⟩
  · intro hle
    rw [hred]
    have h1 : (progress - ((idx : ℚ) / (count : ℚ)) * 0.8) * (10 / 3) ≤ 0 := by nlinarith
    rw [min_eq_right (by linarith), max_eq_left h1]
  · intro hge
    rw [hred]
    have h1 : 1 ≤ (progress - ((idx : ℚ) / (count : ℚ)) * 0.8) * (10 / 3) := by nlinarith
    rw [min_eq_left h1, max_eq_right (by norm_num)]
  · intro hlo hhi
    rw [hred, hq]
    have h0 : 0 < (progress - ((idx : ℚ) / (count : ℚ)) * 0.8) * (10 / 3) := by nlinarith
    have h1 : (progress - ((idx : ℚ) / (count : ℚ)) * 0.8) * (10 / 3) < 1 := by nlinarith
    rw [min_eq_right (by linarith), max_eq_right (by linarith)]
    exact ⟨rfl, h0, h1⟩

/-- Witness for C8 at character 4 of 5 and progress 0.5 (window not begun). -/
theorem c8_kinetic_windows_witness :
    (1 / 2 : ℚ) ≤ (((4 : ℕ) : ℚ) / ((5 : ℕ) : ℚ)) * 0.8 ∧
    kineticClampedProgress 4 5 (1 / 2) = 0 :=
  ⟨by norm_num, (c8_kinetic_windows 4 5 (1 / 2)).2.2.1 (by norm_num)⟩

/-- Enter-phase characterization of the lyric phase selection. -/
lemma animateLinePhase_enter_iff (line : LyricLine) (td t : ℚ) :
    animateLinePhase line td t = some (LyricPhase.enter, (t - line.startTime) / td) ↔
      line.startTime ≤ t ∧ t < line.startTime + td ∧ t < line.endTime := by
  simp only [animateLinePhase]
  split_ifs with h1 h2 h3
  · simp only [Option.some.injEq, Prod.mk.injEq, true_and]
    constructor
    · intro _; exact ⟨h1.1, by linarith [h2], h1.2⟩
    · intro _; trivial
  · simp only [Option.some.injEq, Prod.mk.injEq]
    constructor
    · rintro ⟨h, -⟩; exact absurd h (by simp)
    · rintro ⟨ha, hb, -⟩; exact absurd (by linarith : t - line.startTime < td) h2
  · simp only [Option.some.injEq, Prod.mk.injEq]
    constructor
    · rintro ⟨h, -⟩; exact absurd h (by simp)
    · rintro ⟨ha, -, hc⟩; exact absurd ⟨ha, hc⟩ h1
  · simp only [reduceCtorEq, false_iff]
    rintro ⟨ha, -, hc⟩; exact absurd ⟨ha, hc⟩ h1

/-- Active-phase characterization of the lyric phase selection. -/
lemma animateLinePhase_active_iff (line : LyricLine) (td t : ℚ) (htd : 0 ≤ td) :
    animateLinePhase line td t = some (LyricPhase.active, 1) ↔
      line.startTime + td ≤ t ∧ t < line.endTime := by
  simp only [animateLinePhase]
  split_ifs with h1 h2 h3
  · simp only [Option.some.injEq, Prod.mk.injEq]
    constructor
    · rintro ⟨h, -⟩; exact absurd h (by simp)
    · rintro ⟨ha, -⟩; exact absurd (by linarith : ¬(t - line.startTime < td)) (by simpa using h2)
  · simp only [Option.some.injEq, Prod.mk.injEq, true_and]
    constructor
    · intro _; exact ⟨by push_neg at h2; linarith, h1.2⟩
    · intro _; trivial
  · simp only [Option.some.injEq, Prod.mk.injEq]
    constructor
    · rintro ⟨h, -⟩; exact absurd h (by simp)
    · rintro ⟨ha, hb⟩; exact absurd ⟨by linarith, hb⟩ h1
  · simp only [reduceCtorEq, false_iff]
    rintro ⟨ha, hb⟩; exact absurd ⟨by linarith, hb⟩ h1

/-- Exit-phase characterization of the lyric phase selection. -/
lemma animateLinePhase_exit_iff (line : LyricLine) (td t : ℚ) :
    animateLinePhase line td t = some (LyricPhase.exit, (t - line.endTime) / td) ↔
      line.endTime ≤ t ∧ t < line.endTime + td := by
  simp only [animateLinePhase]
  split_ifs with h1 h2 h3
  · simp only [Option.some.injEq, Prod.mk.injEq]
    constructor
    · rintro ⟨h, -⟩; exact absurd h (by simp)
    · rintro ⟨ha, -⟩; exact absurd h1.2 (by linarith)
  · simp only [Option.some.injEq, Prod.mk.injEq]
    constructor
    · rintro ⟨h, -⟩; exact absurd h (by simp)
    · rintro ⟨ha, -⟩; exact absurd h1.2 (by linarith)
  · simp only [Option.some.injEq, Prod.mk.injEq, true_and]
    exact ⟨fun _ => h3, fun _ => trivial⟩
  · simp only [reduceCtorEq, false_iff]
    exact h3

/-- Hidden (not drawn) characterization of the lyric phase selection. -/
lemma animateLinePhase_none_iff (line : LyricLine) (td t : ℚ) (htd : 0 ≤ td) :
    animateLinePhase line td t = none ↔
      ¬(line.startTime ≤ t ∧ t < line.startTime + td ∧ t < line.endTime) ∧
      ¬(line.startTime + td ≤ t ∧ t < line.endTime) ∧
      ¬(line.endTime ≤ t ∧ t < line.endTime + td) := by
  simp only [animateLinePhase]
  split_ifs with h1 h2 h3
  · simp only [reduceCtorEq, false_iff]
    rintro ⟨hno, -, -⟩; exact hno ⟨h1.1, by linarith, h1.2⟩
  · simp only [reduceCtorEq, false_iff]
    rintro ⟨-, hno, -⟩; exact hno ⟨by push_neg at h2; linarith, h1.2⟩
  · simp only [reduceCtorEq, false_iff]
    rintro ⟨-, -, hno⟩; exact hno h3
  · simp only [true_iff]
    refine ⟨?_, ?_, h3⟩
    · rintro ⟨ha, -, hc⟩; exact h1 ⟨ha, hc⟩
    · rintro ⟨ha, hb⟩; exact h1 ⟨by linarith, hb⟩

/-- Claim C1: the phase drawn for a lyric line is a pure function of the line
and the current time — enter with progress (t-startTime)/transitionDuration
exactly on [startTime, startTime+transitionDuration) while before endTime,
active with progress 1 exactly on [startTime+transitionDuration, endTime),
exit with progress (t-endTime)/transitionDuration exactly on
[endTime, endTime+transitionDuration), and not drawn at all otherwise. -/
theorem c1_phase_selection (line : LyricLine) (td t : ℚ) (htd : 0 ≤ td) :
    (animateLinePhase line td t = some (LyricPhase.enter, (t - line.startTime) / td) ↔
      line.startTime ≤ t ∧ t < line.startTime + td ∧ t < line.endTime) ∧
    (animateLinePhase line td t = some (LyricPhase.active, 1) ↔
      line.startTime + td ≤ t ∧ t < line.endTime) ∧
    (animateLinePhase line td t = some (LyricPhase.exit, (t - line.endTime) / td) ↔
      line.endTime ≤ t ∧ t < line.endTime + td) ∧
    (animateLinePhase line td t = none ↔
      ¬(line.startTime ≤ t ∧ t < line.startTime + td ∧ t < line.endTime) ∧
      ¬(line.startTime + td ≤ t ∧ t < line.endTime) ∧
      ¬(line.endTime ≤ t ∧ t < line.endTime + td)) :=
  ⟨animateLinePhase_enter_iff line td t, animateLinePhase_active_iff line td t htd,
   animateLinePhase_exit_iff line td t, animateLinePhase_none_iff line td t htd⟩

/-- Witness for C1 at the spec's example line (start 10, end 14,
transition 0.5): the listed sample times give the listed phases. -/
theorem c1_phase_selection_witness :
    (0 : ℚ) ≤ 1 / 2 ∧
    animateLinePhase exLine (1 / 2) 10 = some (LyricPhase.enter, 0) ∧
    animateLinePhase exLine (1 / 2) (10.25) = some (LyricPhase.enter, 1 / 2) ∧
    animateLinePhase exLine (1 / 2) (10.5) = some (LyricPhase.active, 1) ∧
    animateLinePhase exLine (1 / 2) 14 = some (LyricPhase.exit, 0) ∧
    animateLinePhase exLine (1 / 2) (9.99) = none ∧
    animateLinePhase exLine (1 / 2) (14.5) = none ∧
    animateLinePhase exLine (1 / 2) (14.51) = none := by
  have henter := (c1_phase_selection exLine (1 / 2) (10.25) (by norm_num)).1.mpr
    (by norm_num [exLine])
  refine ⟨by norm_num, by norm_num [animateLinePhase, exLine], ?_,
    by norm_num [animateLinePhase, exLine], by norm_num [animateLinePhase, exLine],
    by norm_num [animateLinePhase, exLine], by norm_num [animateLinePhase, exLine],
    by norm_num [animateLinePhase, exLine]⟩
  rw [henter]
  norm_num [exLine]

/-- `update` never changes a particle's maximum age. -/
lemma Particle.update_maxLife (msin : ℚ → ℚ) (rnd w h bf sf : ℚ) (p : Particle) :
    (p.update msin rnd w h bf sf).maxLife = p.maxLife := by
  simp only [Particle.update]
  split_ifs <;> rfl

/-- The age written by `update`: 0 when the style's wrap boundary resets the
particle, the incremented age otherwise. -/
lemma Particle.update_life_eq (msin : ℚ → ℚ) (rnd w h bf sf : ℚ) (p : Particle) :
    (p.update msin rnd w h bf sf).life =
      if ((p.style = ParticleStyle.OCEAN ∨ p.style = ParticleStyle.MUSICAL)
            ∧ p.y + p.vy * sf * bf < -50)
          ∨ (p.style = ParticleStyle.SNOW ∧ p.y + p.vy * sf * bf > h + 50) then 0
      else p.life + 1 := by
  cases hst : p.style <;> simp [Particle.update, hst] <;> split_ifs <;> simp_all

/-- The rotation advance applied by `update`. -/
lemma Particle.update_angle_eq (msin : ℚ → ℚ) (rnd w h bf sf : ℚ) (p : Particle) :
    (p.update msin rnd w h bf sf).angle = p.angle + p.rotationSpeed * bf * sf := by
  simp only [Particle.update]
  split_ifs <;> rfl

/-- A particle at or past its maximum age is always removed. -/
lemma animateShouldRemove_of_age (S : ParticleStyle) (w h : ℚ) (p : Particle)
    (hage : p.maxLife ≤ (p.life : ℚ)) :
    animateShouldRemove S w h p = true := by
  unfold animateShouldRemove
  rw [if_pos (Or.inl hage)]
  split_ifs with h1
  · rfl
  · rfl

/-- A particle that survives the removal check is below its maximum age. -/
lemma life_lt_of_not_removed (S : ParticleStyle) (w h : ℚ) (p : Particle)
    (hrem : animateShouldRemove S w h p = false) :
    (p.life : ℚ) < p.maxLife := by
  by_contra hc
  push_neg at hc
  rw [animateShouldRemove_of_age S w h p hc] at hrem
  exact Bool.noConfusion hrem

/-- Pass equation: the visited head is removed and it was the last entry. -/
lemma animateParticlePass_removed_last (msin : ℚ → ℚ) (rnd : ℚ) (S : ParticleStyle)
    (w h bf sf : ℚ) (p : Particle)
    (hrm : animateShouldRemove S w h (p.update msin rnd w h bf sf) = true) :
    animateParticlePass msin rnd S w h bf sf [p] = ([], [p.update msin rnd w h bf sf]) := by
  rw [animateParticlePass.eq_def]
  simp [hrm]

/-- Pass equation: the visited head is removed, so the next entry is skipped
(kept untouched) and iteration resumes after it. -/
lemma animateParticlePass_removed_cons (msin : ℚ → ℚ) (rnd : ℚ) (S : ParticleStyle)
    (w h bf sf : ℚ) (p q : Particle) (rest2 : List Particle)
    (hrm : animateShouldRemove S w h (p.update msin rnd w h bf sf) = true) :
    animateParticlePass msin rnd S w h bf sf (p :: q :: rest2) =
      (q :: (animateParticlePass msin rnd S w h bf sf rest2).1,
       p.update msin rnd w h bf sf :: (animateParticlePass msin rnd S w h bf sf rest2).2) := by
  rw [animateParticlePass.eq_def]
  simp [hrm]

/-- Pass equation: the visited head survives the removal check. -/
lemma animateParticlePass_kept (msin : ℚ → ℚ) (rnd : ℚ) (S : ParticleStyle)
    (w h bf sf : ℚ) (p : Particle) (rest : List Particle)
    (hrm : animateShouldRemove S w h (p.update msin rnd w h bf sf) = false) :
    animateParticlePass msin rnd S w h bf sf (p :: rest) =
      (p.update msin rnd w h bf sf :: (animateParticlePass msin rnd S w h bf sf rest).1,
       p.update msin rnd w h bf sf :: (animateParticlePass msin rnd S w h bf sf rest).2) := by
  rw [animateParticlePass.eq_def]
  simp [hrm]

/-- A visited particle is drawn with age strictly below maxAge + 1, provided
it entered the visit with age strictly below maxAge. -/
lemma update_life_lt_succ (msin : ℚ → ℚ) (rnd w h bf sf : ℚ) (p : Particle)
    (hp : (p.life : ℚ) < p.maxLife) :
    ((p.update msin rnd w h bf sf).life : ℚ) < (p.update msin rnd w h bf sf).maxLife + 1 := by
  rw [Particle.update_maxLife, Particle.update_life_eq]
  have h0 : (0 : ℚ) ≤ (p.life : ℚ) := by positivity
  split_ifs
  · push_cast; linarith
  · push_cast; linarith

/-- Age bounds through one frame pass: if every pool member starts below its
maximum age, every drawn state is below maxAge + 1 and every survivor is
again below its maximum age.  (Induction is on an explicit length bound
because a removal consumes two list entries at once.) -/
lemma animateParticlePass_age_bounds (msin : ℚ → ℚ) (rnd : ℚ) (S : ParticleStyle)
    (w h bf sf : ℚ) :
    ∀ (n : ℕ) (pool : List Particle), pool.length ≤ n →
      (∀ p ∈ pool, (p.life : ℚ) < p.maxLife) →
      (∀ q ∈ (animateParticlePass msin rnd S w h bf sf pool).2,
          (q.life : ℚ) < q.maxLife + 1) ∧
      (∀ q ∈ (animateParticlePass msin rnd S w h bf sf pool).1,
          (q.life : ℚ) < q.maxLife) := by
  intro n
  induction n with
  | zero =>
    intro pool hlen hinv
    have hnil : pool = [] := List.length_eq_zero.mp (Nat.le_zero.mp hlen)
    subst hnil
    simp [animateParticlePass]
  | succ n ih =>
    intro pool hlen hinv
    rcases pool with _ | ⟨p, rest⟩
    · simp [animateParticlePass]
    · have hp := hinv p (List.mem_cons_self p rest)
      have hdrawn := update_life_lt_succ msin rnd w h bf sf p hp
      by_cases hrm : animateShouldRemove S w h (p.update msin rnd w h bf sf) = true
      · rcases rest with _ | ⟨q, rest2⟩
        · rw [animateParticlePass_removed_last msin rnd S w h bf sf p hrm]
          constructor
          · intro x hx
            rw [List.mem_singleton] at hx
            subst hx
            exact hdrawn
          · intro x hx
            exact absurd hx (List.not_mem_nil x)
        · have hrec := ih rest2 (by simp at hlen ⊢; omega)
            (fun r hr => hinv r (List.mem_cons_of_mem p (List.mem_cons_of_mem q hr)))
          rw [animateParticlePass_removed_cons msin rnd S w h bf sf p q rest2 hrm]
          constructor
          · intro x hx
            rcases List.mem_cons.mp hx with rfl | hx2
            · exact hdrawn
            · exact hrec.1 x hx2
          · intro x hx
            rcases List.mem_cons.mp hx with rfl | hx2
            · exact hinv x (List.mem_cons_of_mem p (List.mem_cons_self x rest2))
            · exact hrec.2 x hx2
      · have hrm2 : animateShouldRemove S w h (p.update msin rnd w h bf sf) = false :=
          Bool.not_eq_true _ ▸ Bool.of_not_eq_true hrm
        have hrec := ih rest (by simp at hlen ⊢; omega)
          (fun r hr => hinv r (List.mem_cons_of_mem p hr))
        rw [animateParticlePass_kept msin rnd S w h bf sf p rest hrm2]
        constructor
        · intro x hx
          rcases List.mem_cons.mp hx with rfl | hx2
          · exact hdrawn
          · exact hrec.1 x hx2
        · intro x hx
          rcases List.mem_cons.mp hx with rfl | hx2
          · exact life_lt_of_not_removed S w h _ hrm2
          · exact hrec.2 x hx2

/-- When no visited particle triggers removal, the pass is exactly a map of
`update` over the pool: every particle is advanced and drawn. -/
lemma animateParticlePass_map (msin : ℚ → ℚ) (rnd : ℚ) (S : ParticleStyle)
    (w h bf sf : ℚ) :
    ∀ pool : List Particle,
      (∀ p ∈ pool, animateShouldRemove S w h (p.update msin rnd w h bf sf) = false) →
      animateParticlePass msin rnd S w h bf sf pool =
        (pool.map (Particle.update msin rnd w h bf sf),
         pool.map (Particle.update msin rnd w h bf sf))
  | [] => fun _ => rfl
  | p :: rest => fun hall => by
    have hp := hall p (List.mem_cons_self p rest)
    have hrest := animateParticlePass_map msin rnd S w h bf sf rest
      (fun r hr => hall r (List.mem_cons_of_mem p hr))
    rw [animateParticlePass_kept msin rnd S w h bf sf p rest hp, hrest]
    simp

/-- Claim C2 counterexample: under the STANDARD particle-style setting, a
pool holding one OCEAN-style particle that has drifted past x = width + 100
is removed by the pass even though its age (6 after the update) is far below
its maximum age (150) — a wraparound-style particle removed for position. -/
theorem c2_counterexample :
    cexOceanParticle.style = ParticleStyle.OCEAN ∧
    ((cexOceanParticle.update msin0 0 1920 1080 1 1).life : ℚ)
      < (cexOceanParticle.update msin0 0 1920 1080 1 1).maxLife ∧
    (animateParticlePass msin0 0 ParticleStyle.STANDARD 1920 1080 1 1 [cexOceanParticle]).1
      = [] := by
  have hrm : animateShouldRemove ParticleStyle.STANDARD 1920 1080
      (cexOceanParticle.update msin0 0 1920 1080 1 1) = true := by
    norm_num [animateShouldRemove, Particle.update, cexOceanParticle, msin0]
    exact ⟨fun hc => ParticleStyle.noConfusion hc, fun hc => ParticleStyle.noConfusion hc,
      fun hc => ParticleStyle.noConfusion hc⟩
  refine ⟨rfl, ?_, ?_⟩
  · norm_num [Particle.update, cexOceanParticle, msin0]
  · rw [animateParticlePass_removed_last msin0 0 ParticleStyle.STANDARD 1920 1080 1 1
      cexOceanParticle hrm]

/-- Claim C2 (amended): the wraparound-vs-bounds removal policy is keyed on
the currently selected particleStyle setting, not the particle's own style:
when the setting is OCEAN, MUSICAL or SNOW a checked particle is removed
exactly when age ≥ maxAge; for any other setting it is removed exactly when
age ≥ maxAge or its position exceeds the canvas bounds by more than 100
units on any side; and on a singleton pool the pass removes the updated
particle exactly when this decision says so. -/
theorem c2_removal_policy (S : ParticleStyle) (w h : ℚ) (p : Particle) :
    ((S = ParticleStyle.OCEAN ∨ S = ParticleStyle.MUSICAL ∨ S = ParticleStyle.SNOW) →
      (animateShouldRemove S w h p = true ↔ p.maxLife ≤ (p.life : ℚ))) ∧
    (¬(S = ParticleStyle.OCEAN ∨ S = ParticleStyle.MUSICAL ∨ S = ParticleStyle.SNOW) →
      (animateShouldRemove S w h p = true ↔
        p.maxLife ≤ (p.life : ℚ) ∨ p.y < -100 ∨ p.y > h + 100
          ∨ p.x < -100 ∨ p.x > w + 100)) ∧
    (∀ (msin : ℚ → ℚ) (rnd bf sf : ℚ),
      (animateParticlePass msin rnd S w h bf sf [p]).1 =
        if animateShouldRemove S w h (p.update msin rnd w h bf sf) = true then []
        else [p.update msin rnd w h bf sf]) := by
  refine ⟨?_, ?_, ?_⟩
  · intro hS
    have hnw : ¬(S ≠ ParticleStyle.OCEAN ∧ S ≠ ParticleStyle.MUSICAL
        ∧ S ≠ ParticleStyle.SNOW) := by
      rcases hS with rfl | rfl | rfl
      · exact fun hc => hc.1 rfl
      · exact fun hc => hc.2.1 rfl
      · exact fun hc => hc.2.2 rfl
    unfold animateShouldRemove
    by_cases houter : p.maxLife ≤ (p.life : ℚ) ∨ p.y < -100 ∨ p.y > h + 100
        ∨ p.x < -100 ∨ p.x > w + 100
    · rw [if_pos houter, if_neg hnw]
      by_cases hage : p.maxLife ≤ (p.life : ℚ)
      · rw [if_pos hage]
        simp only [true_iff]
        exact hage
      · rw [if_neg hage]
        simp only [Bool.false_eq_true, false_iff]
        exact hage
    · rw [if_neg houter]
      simp only [Bool.false_eq_true, false_iff]
      intro hage
      exact houter (Or.inl hage)
  · intro hS
    push_neg at hS
    unfold animateShouldRemove
    by_cases houter : p.maxLife ≤ (p.life : ℚ) ∨ p.y < -100 ∨ p.y > h + 100
        ∨ p.x < -100 ∨ p.x > w + 100
    · rw [if_pos houter, if_pos ⟨hS.1, hS.2.1, hS.2.2⟩]
      simp only [true_iff]
      exact houter
    · rw [if_neg houter]
      simp only [Bool.false_eq_true, false_iff]
      exact houter
  · intro msin rnd bf sf
    by_cases hr : animateShouldRemove S w h (p.update msin rnd w h bf sf) = true
    · rw [animateParticlePass_removed_last msin rnd S w h bf sf p hr, if_pos hr]
    · have hr2 : animateShouldRemove S w h (p.update msin rnd w h bf sf) = false :=
        Bool.not_eq_true _ ▸ Bool.of_not_eq_true hr
      rw [animateParticlePass_kept msin rnd S w h bf sf p [] hr2, if_neg hr]
      rfl

/-- Witness for C2 (amended): with the OCEAN setting, the drifted OCEAN
particle's removal reduces to the pure age test. -/
theorem c2_removal_policy_witness :
    (ParticleStyle.OCEAN = ParticleStyle.OCEAN ∨ ParticleStyle.OCEAN = ParticleStyle.MUSICAL
      ∨ ParticleStyle.OCEAN = ParticleStyle.SNOW) ∧
    (animateShouldRemove ParticleStyle.OCEAN 1920 1080 cexOceanParticle = true ↔
      cexOceanParticle.maxLife ≤ (cexOceanParticle.life : ℚ)) :=
  ⟨Or.inl rfl,
   (c2_removal_policy ParticleStyle.OCEAN 1920 1080 cexOceanParticle).1 (Or.inl rfl)⟩

/-- Claim C3 counterexample: an OCEAN particle crossing the y < -50 wrap
boundary has its age reset to 0 by `update` instead of increased by 1, and
it stays in the pool with that reset age. -/
theorem c3_counterexample :
    cexResetParticle.life = 5 ∧
    (cexResetParticle.update msin0 (1 / 2) 1920 1080 1 1).life = 0 ∧
    ((animateParticlePass msin0 (1 / 2) ParticleStyle.OCEAN 1920 1080 1 1
        [cexResetParticle]).1.map Particle.life) = [0] := by
  have hrm : animateShouldRemove ParticleStyle.OCEAN 1920 1080
      (cexResetParticle.update msin0 (1 / 2) 1920 1080 1 1) = false := by
    norm_num [animateShouldRemove, Particle.update, cexResetParticle, msin0]
  refine ⟨rfl, ?_, ?_⟩
  · norm_num [Particle.update, cexResetParticle, msin0]
  · rw [animateParticlePass_kept msin0 (1 / 2) ParticleStyle.OCEAN 1920 1080 1 1
      cexResetParticle [] hrm]
    norm_num [Particle.update, cexResetParticle, msin0, animateParticlePass]

/-- Claim C3 (amended): each update increments a particle's age by exactly 1,
except that a wrap-boundary crossing (OCEAN/MUSICAL above y = -50, SNOW below
y = height + 50) resets the age to 0 in the same update; and assuming every
pool member starts the frame with age < maxAge (as holds from spawn), every
state passed to draw has age < maxAge + 1 and every survivor again has
age < maxAge, so a draw call can exceed the maximum age by less than one
frame only. -/
theorem c3_age_dynamics :
    (∀ (msin : ℚ → ℚ) (rnd w h bf sf : ℚ) (p : Particle),
      (p.update msin rnd w h bf sf).life =
        if ((p.style = ParticleStyle.OCEAN ∨ p.style = ParticleStyle.MUSICAL)
              ∧ p.y + p.vy * sf * bf < -50)
            ∨ (p.style = ParticleStyle.SNOW ∧ p.y + p.vy * sf * bf > h + 50) then 0
        else p.life + 1) ∧
    (∀ (msin : ℚ → ℚ) (rnd : ℚ) (S : ParticleStyle) (w h bf sf : ℚ)
        (pool : List Particle),
      (∀ p ∈ pool, (p.life : ℚ) < p.maxLife) →
      (∀ q ∈ (animateParticlePass msin rnd S w h bf sf pool).2,
          (q.life : ℚ) < q.maxLife + 1) ∧
      (∀ q ∈ (animateParticlePass msin rnd S w h bf sf pool).1,
          (q.life : ℚ) < q.maxLife)) :=
  ⟨fun msin rnd w h bf sf p => Particle.update_life_eq msin rnd w h bf sf p,
   fun msin rnd S w h bf sf pool hinv =>
     animateParticlePass_age_bounds msin rnd S w h bf sf pool.length pool le_rfl hinv⟩

/-- Witness for C3 (amended) on a concrete singleton pool: the young
particle survives the pass within its age bound. -/
theorem c3_age_dynamics_witness :
    ((cexSkippedParticle.life : ℚ) < cexSkippedParticle.maxLife) ∧
    ((cexSkippedParticle.update msin0 0 1920 1080 1 1).life : ℚ)
      < (cexSkippedParticle.update msin0 0 1920 1080 1 1).maxLife := by
  have hpool : ∀ p ∈ [cexSkippedParticle], (p.life : ℚ) < p.maxLife := by
    intro p hp
    rw [List.mem_singleton] at hp
    subst hp
    norm_num [cexSkippedParticle]
  have hbounds := (c3_age_dynamics.2 msin0 0 ParticleStyle.STANDARD 1920 1080 1 1
    [cexSkippedParticle] hpool).2
  have hrm : animateShouldRemove ParticleStyle.STANDARD 1920 1080
      (cexSkippedParticle.update msin0 0 1920 1080 1 1) = false := by
    norm_num [animateShouldRemove, Particle.update, cexSkippedParticle, msin0]
  have hpass : (animateParticlePass msin0 0 ParticleStyle.STANDARD 1920 1080 1 1
      [cexSkippedParticle]).1 = [cexSkippedParticle.update msin0 0 1920 1080 1 1] := by
    rw [animateParticlePass_kept msin0 0 ParticleStyle.STANDARD 1920 1080 1 1
      cexSkippedParticle [] hrm]
    rfl
  refine ⟨by norm_num [cexSkippedParticle], ?_⟩
  exact hbounds _ (hpass ▸ List.mem_singleton.mpr rfl)

/-- Claim C4 counterexample: in a two-particle pool whose head reaches its
maximum age (and is removed), the `forEach`/`splice` interplay skips the
second particle entirely: it survives the frame with its state — including
its age — completely unchanged, and only one particle is drawn. -/
theorem c4_counterexample :
    (animateParticlePass msin0 0 ParticleStyle.STANDARD 1920 1080 1 1
        [cexAgedParticle, cexSkippedParticle]).1 = [cexSkippedParticle] ∧
    cexSkippedParticle.life = 7 ∧
    (animateParticlePass msin0 0 ParticleStyle.STANDARD 1920 1080 1 1
        [cexAgedParticle, cexSkippedParticle]).2
      = [cexAgedParticle.update msin0 0 1920 1080 1 1] := by
  have hrm : animateShouldRemove ParticleStyle.STANDARD 1920 1080
      (cexAgedParticle.update msin0 0 1920 1080 1 1) = true := by
    norm_num [animateShouldRemove, Particle.update, cexAgedParticle, msin0]
  rw [animateParticlePass_removed_cons msin0 0 ParticleStyle.STANDARD 1920 1080 1 1
    cexAgedParticle cexSkippedParticle [] hrm]
  exact ⟨rfl, rfl, rfl⟩

/-- Claim C4 (amended): every particle the pass visits is advanced — rotation
by rotationSpeed × beatFactor × speedFactor always; position by
velocity × speedFactor × beatFactor, with the extra sin(age·0.05)·0.5
x-drift for OCEAN and SNOW, and age incremented, whenever no wrap-boundary
reset fires — and in a frame with no removal the pass advances every
particle of the pool; but when a particle is removed, the particle right
after it in the pool is skipped for that frame. -/
theorem c4_update_pass :
    (∀ (msin : ℚ → ℚ) (rnd w h bf sf : ℚ) (p : Particle),
      (p.update msin rnd w h bf sf).angle = p.angle + p.rotationSpeed * bf * sf) ∧
    (∀ (msin : ℚ → ℚ) (rnd w h bf sf : ℚ) (p : Particle),
      ¬(((p.style = ParticleStyle.OCEAN ∨ p.style = ParticleStyle.MUSICAL)
            ∧ p.y + p.vy * sf * bf < -50)
          ∨ (p.style = ParticleStyle.SNOW ∧ p.y + p.vy * sf * bf > h + 50)) →
      (p.update msin rnd w h bf sf).x =
        p.x + p.vx * sf * bf +
          (if p.style = ParticleStyle.OCEAN ∨ p.style = ParticleStyle.SNOW then
            msin ((p.life : ℚ) * 0.05) * 0.5 else 0) ∧
      (p.update msin rnd w h bf sf).y = p.y + p.vy * sf * bf ∧
      (p.update msin rnd w h bf sf).life = p.life + 1) ∧
    (∀ (msin : ℚ → ℚ) (rnd : ℚ) (S : ParticleStyle) (w h bf sf : ℚ)
        (pool : List Particle),
      (∀ p ∈ pool, animateShouldRemove S w h (p.update msin rnd w h bf sf) = false) →
      animateParticlePass msin rnd S w h bf sf pool =
        (pool.map (Particle.update msin rnd w h bf sf),
         pool.map (Particle.update msin rnd w h bf sf))) := by
  refine ⟨fun msin rnd w h bf sf p => Particle.update_angle_eq msin rnd w h bf sf p,
    ?_, fun msin rnd S w h bf sf pool hall =>
      animateParticlePass_map msin rnd S w h bf sf pool hall⟩
  intro msin rnd w h bf sf p hnr
  cases hst : p.style <;>
    simp only [Particle.update, hst] <;>
    rw [hst] at hnr <;>
    simp_all <;>
    split_ifs <;>
    simp_all <;>
    linarith

/-- Witness for C4 (amended) on a concrete no-removal pool: the single young
particle is advanced by the pass. -/
theorem c4_update_pass_witness :
    animateShouldRemove ParticleStyle.STANDARD 1920 1080
      (cexSkippedParticle.update msin0 0 1920 1080 1 1) = false ∧
    animateParticlePass msin0 0 ParticleStyle.STANDARD 1920 1080 1 1 [cexSkippedParticle]
      = ([cexSkippedParticle.update msin0 0 1920 1080 1 1],
         [cexSkippedParticle.update msin0 0 1920 1080 1 1]) := by
  have hrm : animateShouldRemove ParticleStyle.STANDARD 1920 1080
      (cexSkippedParticle.update msin0 0 1920 1080 1 1) = false := by
    norm_num [animateShouldRemove, Particle.update, cexSkippedParticle, msin0]
  refine ⟨hrm, ?_⟩
  have hall : ∀ p ∈ [cexSkippedParticle],
      animateShouldRemove ParticleStyle.STANDARD 1920 1080
        (p.update msin0 0 1920 1080 1 1) = false := by
    intro p hp
    rw [List.mem_singleton] at hp
    subst hp
    exact hrm
  rw [c4_update_pass.2.2 msin0 0 ParticleStyle.STANDARD 1920 1080 1 1
    [cexSkippedParticle] hall]
  rfl

/-- Claim C10: the per-frame removal decision branches on the currently
selected particle-style setting and is entirely independent of the
particle's own stored style; in particular a particle whose own style is a
wraparound style but which is out of bounds by more than 100 units is
removed once the setting is a non-wraparound style. -/
theorem c10_removal_uses_settings_style :
    (∀ (S : ParticleStyle) (w h : ℚ) (p : Particle) (st : ParticleStyle),
      animateShouldRemove S w h { p with style := st } = animateShouldRemove S w h p) ∧
    (∀ (S : ParticleStyle) (w h : ℚ) (p : Particle),
      (p.style = ParticleStyle.OCEAN ∨ p.style = ParticleStyle.MUSICAL
        ∨ p.style = ParticleStyle.SNOW) →
      ¬(S = ParticleStyle.OCEAN ∨ S = ParticleStyle.MUSICAL ∨ S = ParticleStyle.SNOW) →
      (p.x < -100 ∨ p.x > w + 100 ∨ p.y < -100 ∨ p.y > h + 100) →
      animateShouldRemove S w h p = true) := by
  constructor
  · intro S w h p st
    rfl
  · intro S w h p hown hS hpos
    push_neg at hS
    unfold animateShouldRemove
    have houter : p.maxLife ≤ (p.life : ℚ) ∨ p.y < -100 ∨ p.y > h + 100
        ∨ p.x < -100 ∨ p.x > w + 100 := by
      rcases hpos with hx | hx | hy | hy
      · exact Or.inr (Or.inr (Or.inr (Or.inl hx)))
      · exact Or.inr (Or.inr (Or.inr (Or.inr hx)))
      · exact Or.inr (Or.inl hy)
      · exact Or.inr (Or.inr (Or.inl hy))
    rw [if_pos houter, if_pos ⟨hS.1, hS.2.1, hS.2.2⟩]

/-- Witness for C10: the drifted OCEAN particle is removed under the
STANDARD setting. -/
theorem c10_removal_uses_settings_style_witness :
    cexOceanParticle.style = ParticleStyle.OCEAN ∧
    ¬(ParticleStyle.STANDARD = ParticleStyle.OCEAN
      ∨ ParticleStyle.STANDARD = ParticleStyle.MUSICAL
      ∨ ParticleStyle.STANDARD = ParticleStyle.SNOW) ∧
    cexOceanParticle.x > 1920 + 100 ∧
    animateShouldRemove ParticleStyle.STANDARD 1920 1080 cexOceanParticle = true := by
  refine ⟨rfl, ?_, by norm_num [cexOceanParticle], ?_⟩
  · rintro (hc | hc | hc) <;> exact ParticleStyle.noConfusion hc
  · exact c10_removal_uses_settings_style.2 ParticleStyle.STANDARD 1920 1080
      cexOceanParticle (Or.inl rfl)
      (by rintro (hc | hc | hc) <;> exact ParticleStyle.noConfusion hc)
      (Or.inr (Or.inl (by norm_num [cexOceanParticle])))
